import Mathlib

/-!
# captagent `protocol_ss7`: M2UA / MTP3 / ISUP payload extraction

Shallow embedding of `src/modules/protocol/ss7/protocol_ss7.c`.

* A buffer is a list of bytes; a pointer into the buffer is the byte offset
  from `msg->data`; `NULL` is `none`.
* Every function returns, next to its C result, the diagnostics it logged
  (`LERR` / `LDEBUG` call sites, in order) and the byte offsets it read.
* The IE scan loop is run with a bound on the number of iterations; a run
  that has not reached a `return` within the bound has `ret = none`.
* `uint32_t` arithmetic wraps modulo `2^32`, `size_t` is 64 bits wide.
-/

namespace SS7

/-- One byte of captured data (`uint8_t`). -/
abbrev uint8_t := Fin 256

/-- Constant `#define SCTP_M2UA_PPID 2` -/
def SCTP_M2UA_PPID : Nat := 2
/-- Constant `#define M2UA_MSG 6` -/
def M2UA_MSG : Nat := 6
/-- Constant `#define M2UA_DATA 1` -/
def M2UA_DATA : Nat := 1
/-- Constant `#define M2UA_IE_DATA 0x0300` -/
def M2UA_IE_DATA : Nat := 0x0300
/-- Constant `#define MTP_ISUP 0x05` -/
def MTP_ISUP : Int := 0x05
/-- Constant `INT_MAX` of `<limits.h>` for a 32-bit `int`. -/
def INT_MAX : Int := 2147483647
/-- Value of `sizeof(struct mtp_level_3_hdr)`: one byte of bit-fields, a packed 32-bit
group of bit-fields and a zero-length array. -/
def sizeof_mtp_level_3_hdr : Nat := 5

/-- Modelled from the spec: the message object of `captagent/structure.h`
(`msg_t`), of which the code uses the byte buffer `data`, its length `len`,
the SCTP payload protocol identifier `sctp_ppid` and the classification
field `rcinfo.proto_type`. `data` lists the bytes found at `msg->data`. -/
structure msg_t where
  data : List uint8_t
  len : Nat
  sctp_ppid : Nat
  proto_type : Nat
  deriving DecidableEq, Repr

/-- Severity of a diagnostic. -/
inductive severity where
  | error
  | debug
  deriving DecidableEq, Repr

/-- The diagnostics of the file, one constructor for each format string, with
the values printed. -/
inductive diag where
  /-- Format "M2UA hdr too short %u". -/
  | m2ua_hdr_too_short (len : Nat)
  /-- Format "M2UA unknown version number %d". -/
  | m2ua_unknown_version (v : Nat)
  /-- Format "M2UA unknown reserved fields %d". -/
  | m2ua_unknown_reserved (v : Nat)
  /-- Format "M2UA unhandled message class %d". -/
  | m2ua_unhandled_class (v : Nat)
  /-- Format "M2UA not data msg but %d". -/
  | m2ua_not_data_msg (v : Nat)
  /-- Format "M2UA data can't fit %u vs. %u". -/
  | m2ua_cant_fit (len data_len : Nat)
  /-- Format "M2UA premature end %u vs. %u". -/
  | m2ua_premature_end (ie_len data_len : Nat)
  /-- Format "M2UA no place for padding %u vs. %u". -/
  | m2ua_no_place_for_padding (padding data_len : Nat)
  /-- Format "M2UA no data element found". -/
  | m2ua_no_data_element
  /-- Format "MTP not enough space for mtp hdr %zu vs. %zu". -/
  | mtp_not_enough_space (len hdr : Nat)
  /-- Format "SS7 SCTP PPID(%u) not known". -/
  | ppid_not_known (ppid : Nat)
  /-- Format "ISUP service indicator not ISUP but %d". -/
  | isup_not_isup (type : Int)
  deriving DecidableEq, Repr

/-- Modelled from the spec: the `LERR` logging call of `captagent/log.h`, a
sink that takes a formatted message and records it at error severity. -/
def LERR (d : diag) : severity × diag := (severity.error, d)

/-- Modelled from the spec: the `LDEBUG` logging call of `captagent/log.h`, a
sink that takes a formatted message and records it at debug severity. -/
def LDEBUG (d : diag) : severity × diag := (severity.debug, d)

/-- The byte `data[i]`. An offset outside the listed bytes reads as 0; every
offset read is recorded by the caller, so such a read stays visible. -/
def rd (data : List uint8_t) (i : Nat) : Nat := (data.getD i 0).val

/-- Combination of `memcpy` of the two bytes at `&data[i]` followed by `ntohs`: the
big-endian 16-bit value. -/
def ntohs_at (data : List uint8_t) (i : Nat) : Nat :=
  rd data i * 256 + rd data (i + 1)

/-- Combination of `memcpy` of the four bytes at `&data[i]` followed by `ntohl`: the
big-endian 32-bit value. -/
def ntohl_at (data : List uint8_t) (i : Nat) : Nat :=
  rd data i * 16777216 + rd data (i + 1) * 65536 + rd data (i + 2) * 256 + rd data (i + 3)

/-- Subtraction of `uint32_t` values: modulo `2^32 = 4294967296`. -/
def sub32 (a b : Nat) : Nat := (a + 4294967296 - b % 4294967296) % 4294967296

/-- The value stored by `*len = ie_len - 4`: the `int` difference converted
to a 64-bit `size_t`, modulo `2^64 = 18446744073709551616`. -/
def size_of_int (i : Int) : Nat := (i % 18446744073709551616).toNat

/-- Subtraction of `size_t` values: modulo `2^64`. -/
def sub_size (a b : Nat) : Nat :=
  (a + 18446744073709551616 - b % 18446744073709551616) % 18446744073709551616

/-- What a function hands back: the offsets it read, the diagnostics it
logged, and its result (`none` while the scan loop has not returned). -/
structure outcome (α : Type) where
  reads : List Nat
  log : List (severity × diag)
  ret : Option α
  deriving DecidableEq, Repr

/-- A returned pointer (offset from `msg->data`, `none` for `NULL`) and the
value of `*len` after the call. -/
structure slice_ret where
  ptr : Option Nat
  len : Nat
  deriving DecidableEq, Repr

/-- Result of one pass through the body of the `while` loop of
`extract_from_m2ua`. -/
inductive ie_step where
  /-- Statement `return NULL` after logging. -/
  | fail (log : List (severity × diag))
  /-- Statements `*len = ie_len - 4; return &data[4]`. -/
  | found (ptr : Nat) (len : Nat)
  /-- Reached the end of the body with the new `data` and `data_len`. -/
  | next (off : Nat) (data_len : Nat)
  deriving DecidableEq, Repr

/-- Offsets read by the two `memcpy` calls of the loop body. -/
def ie_reads (off : Nat) : List Nat := [off, off + 1, off + 2, off + 3]

/-- The value the loop body assigns to `padding`:
`(4 - (ie_len % 4)) & 0x3`. -/
def ie_padding (ie_len : Nat) : Nat := (4 - (ie_len % 4)) &&& 0x3

/-- Body of the `while (data_len > 4)` loop of `extract_from_m2ua`, with
`data` at offset `off` of the buffer `buf`. -/
def ie_scan_step (buf : List uint8_t) (off data_len : Nat) : ie_step :=
  let ie_tag := ntohs_at buf off
  let ie_len := ntohs_at buf (off + 2)
  if ie_len > data_len then
    ie_step.fail [LERR (diag.m2ua_premature_end ie_len data_len)]
  else if ie_tag ≠ M2UA_IE_DATA then
    -- next:
    let off1 := off + ie_len
    let data_len1 := sub32 data_len ie_len
    let padding := ie_padding ie_len
    if data_len1 < padding then
      ie_step.fail [LERR (diag.m2ua_no_place_for_padding padding data_len1)]
    else
      ie_step.next (off1 + padding) (sub32 data_len1 padding)
  else
    ie_step.found (off + 4) (size_of_int ((ie_len : Int) - 4))

/-- The `while (data_len > 4)` loop of `extract_from_m2ua` and the statements
after it, run for at most `fuel` evaluations of the loop head. `len` is the
value `*len` holds on entry. -/
def ie_scan (buf : List uint8_t) (len : Nat) : Nat → Nat → Nat → outcome slice_ret
  | 0, _, _ => ⟨[], [], none⟩
  | fuel + 1, off, data_len =>
    if data_len > 4 then
      match ie_scan_step buf off data_len with
      | ie_step.fail log => ⟨ie_reads off, log, some ⟨none, len⟩⟩
      | ie_step.found ptr len1 => ⟨ie_reads off, [], some ⟨some ptr, len1⟩⟩
      | ie_step.next off1 data_len1 =>
        let r := ie_scan buf len fuel off1 data_len1
        ⟨ie_reads off ++ r.reads, r.log, r.ret⟩
    else
      ⟨[], [LERR diag.m2ua_no_data_element], some ⟨none, len⟩⟩

/-- Function `static uint8_t *extract_from_m2ua(msg_t *msg, size_t *len)`; `len` is the
value `*len` holds on entry. -/
def extract_from_m2ua (fuel : Nat) (msg : msg_t) (len : Nat) : outcome slice_ret :=
  if msg.len < 8 then
    ⟨[], [LERR (diag.m2ua_hdr_too_short msg.len)], some ⟨none, len⟩⟩
  else
    let data := msg.data
    if rd data 0 ≠ 0x01 then
      ⟨[0], [LERR (diag.m2ua_unknown_version (rd data 0))], some ⟨none, len⟩⟩
    else if rd data 1 ≠ 0x00 then
      ⟨[0, 1], [LERR (diag.m2ua_unknown_reserved (rd data 1))], some ⟨none, len⟩⟩
    else if rd data 2 ≠ M2UA_MSG then
      ⟨[0, 1, 2], [LDEBUG (diag.m2ua_unhandled_class (rd data 2))], some ⟨none, len⟩⟩
    else if rd data 3 ≠ M2UA_DATA then
      ⟨[0, 1, 2, 3], [LDEBUG (diag.m2ua_not_data_msg (rd data 3))], some ⟨none, len⟩⟩
    else
      let data_len := ntohl_at data 4
      if msg.len < data_len then
        ⟨[0, 1, 2, 3, 4, 5, 6, 7], [LERR (diag.m2ua_cant_fit msg.len data_len)],
          some ⟨none, len⟩⟩
      else
        let r := ie_scan data len fuel 8 (sub32 data_len 8)
        ⟨[0, 1, 2, 3, 4, 5, 6, 7] ++ r.reads, r.log, r.ret⟩

/-- Host byte order, which selects the variant of `struct mtp_level_3_hdr`. -/
inductive byte_order where
  | little
  | big
  deriving DecidableEq, Repr

/-- The fields of `struct mtp_level_3_hdr`. -/
structure mtp_level_3_hdr where
  ser_ind : Nat
  spare : Nat
  ni : Nat
  dpc : Nat
  opc : Nat
  sls : Nat
  deriving DecidableEq, Repr

/-- The packed bit-fields of `struct mtp_level_3_hdr` laid over the five bytes
at offset `p`, as GCC allocates them: on a little-endian host from the least
significant bit of the byte, respectively of the 32-bit group read in
little-endian order; on a big-endian host from the most significant bit of
the byte, respectively of the 32-bit group read in big-endian order. -/
def read_mtp_level_3_hdr (bo : byte_order) (buf : List uint8_t) (p : Nat) : mtp_level_3_hdr :=
  let b0 := rd buf p
  match bo with
  | byte_order.little =>
    let w := rd buf (p + 1) + rd buf (p + 2) * 256 + rd buf (p + 3) * 65536
      + rd buf (p + 4) * 16777216
    { ser_ind := b0 % 16, spare := b0 / 16 % 4, ni := b0 / 64,
      dpc := w % 16384, opc := w / 16384 % 16384, sls := w / 268435456 }
  | byte_order.big =>
    let w := rd buf (p + 1) * 16777216 + rd buf (p + 2) * 65536 + rd buf (p + 3) * 256
      + rd buf (p + 4)
    { ni := b0 / 64, spare := b0 / 16 % 4, ser_ind := b0 % 16,
      sls := w / 268435456, opc := w / 16384 % 16384, dpc := w % 16384 }

/-- The variables that the callers pass by address: `len`, `opc`, `dpc` and
`type`. -/
structure out_vars where
  len : Nat
  opc : Int
  dpc : Int
  type : Int
  deriving DecidableEq, Repr

/-- A returned pointer together with the variables passed by address. -/
structure mtp_ret where
  ptr : Option Nat
  vars : out_vars
  deriving DecidableEq, Repr

/-- Function `static uint8_t *extract_from_mtp(uint8_t *data, size_t *len, int *opc,
int *dpc, int *type)`; `data` is an offset into `buf`, `v` holds the values
behind the four pointers on entry. -/
def extract_from_mtp (bo : byte_order) (buf : List uint8_t) (data : Option Nat)
    (v : out_vars) : outcome mtp_ret :=
  let v1 : out_vars := { v with opc := INT_MAX, dpc := INT_MAX }
  match data with
  | none => ⟨[], [], some ⟨none, v1⟩⟩
  | some p =>
    if v1.len < sizeof_mtp_level_3_hdr then
      ⟨[], [LERR (diag.mtp_not_enough_space v1.len sizeof_mtp_level_3_hdr)], some ⟨none, v1⟩⟩
    else
      let hdr := read_mtp_level_3_hdr bo buf p
      ⟨[p, p + 1, p + 2, p + 3, p + 4], [],
        some ⟨some (p + sizeof_mtp_level_3_hdr),
          { len := sub_size v1.len sizeof_mtp_level_3_hdr,
            opc := (hdr.opc : Int), dpc := (hdr.dpc : Int), type := (hdr.ser_ind : Int) }⟩⟩

/-- Result of the two entry points: the message after the call next to the
outcome. -/
structure msg_outcome (α : Type) where
  msg : msg_t
  reads : List Nat
  log : List (severity × diag)
  ret : Option α
  deriving DecidableEq, Repr

/-- Function `static uint8_t *ss7_extract_payload(msg_t *msg, size_t *len, int *opc,
int *dpc, int *type)`. -/
def ss7_extract_payload (fuel : Nat) (bo : byte_order) (msg : msg_t) (v : out_vars) :
    msg_outcome mtp_ret :=
  if msg.sctp_ppid = SCTP_M2UA_PPID then
    let msg1 : msg_t := { msg with proto_type := 0x08 }
    let r := extract_from_m2ua fuel msg1 v.len
    match r.ret with
    | none => ⟨msg1, r.reads, r.log, none⟩
    | some s =>
      let m := extract_from_mtp bo msg1.data s.ptr { v with len := s.len }
      ⟨msg1, r.reads ++ m.reads, r.log ++ m.log, m.ret⟩
  else
    ⟨msg, [], [LDEBUG (diag.ppid_not_known msg.sctp_ppid)], some ⟨none, v⟩⟩

/-- Function `static int ss7_parse_isup(msg_t *msg, char *param1, char *param2)`; `v`
holds the indeterminate initial contents of the locals `len`, `opc`, `dpc`
and `type`. -/
def ss7_parse_isup (fuel : Nat) (bo : byte_order) (msg : msg_t) (v : out_vars) :
    msg_outcome Int :=
  let r := ss7_extract_payload fuel bo msg v
  match r.ret with
  | none => ⟨r.msg, r.reads, r.log, none⟩
  | some p =>
    match p.ptr with
    | none => ⟨r.msg, r.reads, r.log, some (-1)⟩
    | some _ =>
      if p.vars.type ≠ MTP_ISUP then
        ⟨r.msg, r.reads, r.log ++ [LDEBUG (diag.isup_not_isup p.vars.type)], some (-1)⟩
      else
        ⟨r.msg, r.reads, r.log, some 1⟩

/-- Spec section 7, `Malformed`: the failure is surfaced as an error-severity
diagnostic. -/
def Malformed (log : List (severity × diag)) : Prop :=
  ∃ e ∈ log, e.1 = severity.error

/-- Spec section 7, `ProtocolMismatch`: the failure is surfaced at debug
severity, with no error-severity diagnostic. -/
def ProtocolMismatch (log : List (severity × diag)) : Prop :=
  log ≠ [] ∧ ∀ e ∈ log, e.1 = severity.debug

instance (log : List (severity × diag)) : Decidable (Malformed log) := by
  unfold Malformed; infer_instance

instance (log : List (severity × diag)) : Decidable (ProtocolMismatch log) := by
  unfold ProtocolMismatch; infer_instance

/-- The byte with value `n mod 256`. -/
def byte (n : Nat) : uint8_t := ⟨n % 256, Nat.mod_lt _ (by decide)⟩

/-- Big-endian 16-bit encoding. -/
def be16 (n : Nat) : List uint8_t := [byte (n / 256), byte n]

/-- Big-endian 32-bit encoding. -/
def be32 (n : Nat) : List uint8_t :=
  [byte (n / 16777216), byte (n / 65536), byte (n / 256), byte n]

/-- The 8-byte M2UA common header of the scenarios: version 1, reserved 0,
class 6, type 1 and the big-endian total length. -/
def m2ua_header (total : Nat) : List uint8_t := [1, 0, 6, 1] ++ be32 total

/-- The message of end-to-end scenarios A and B: the common header with
total length `17 + M` and one IE with tag 0x0300 and length `9 + M` whose
value is the MTP3 header `h` followed by the `M` payload bytes. -/
def scenario_msg (h payload : List uint8_t) (ppid proto_type : Nat) : msg_t :=
  { data := m2ua_header (17 + payload.length)
      ++ (be16 0x0300 ++ be16 (9 + payload.length) ++ (h ++ payload)),
    len := 17 + payload.length,
    sctp_ppid := ppid,
    proto_type := proto_type }

/-- The bytes `buf[off .. off + len - 1]`. -/
def slice (buf : List uint8_t) (off len : Nat) : List uint8_t := (buf.drop off).take len

/-- An 8-byte message whose common header declares total length 0. -/
def overread_msg : msg_t := ⟨[1, 0, 6, 1, 0, 0, 0, 0], 8, 2, 0⟩

/-- A 16-byte message whose first IE has tag 0x0001 and declares length 0. -/
def stuck_msg : msg_t := ⟨[1, 0, 6, 1, 0, 0, 0, 16, 0, 1, 0, 0, 0, 0, 0, 0], 16, 2, 0⟩

/-- Scenario D: a 50-byte buffer whose common header declares length 1000. -/
def short_declared_msg : msg_t := ⟨m2ua_header 1000 ++ List.replicate 42 0, 50, 2, 0⟩

/-- The buffer `buf` holds, from offset `off` on with `rem` bytes remaining,
IEs of declared lengths `Ls`, none of them tagged 0x0300, each of which fits
together with its padding in the bytes that remain, and after the last of
them at most 4 bytes remain. -/
def non_data_ies (buf : List uint8_t) : List Nat → Nat → Nat → Prop
  | [], _, rem => rem ≤ 4
  | L :: Ls, off, rem =>
    4 < rem ∧ ntohs_at buf off ≠ 0x0300 ∧ ntohs_at buf (off + 2) = L
      ∧ L + (4 - L % 4) % 4 ≤ rem
      ∧ non_data_ies buf Ls (off + (L + (4 - L % 4) % 4)) (rem - (L + (4 - L % 4) % 4))

instance non_data_ies_decidable (buf : List uint8_t) :
    (Ls : List Nat) → (off rem : Nat) → Decidable (non_data_ies buf Ls off rem)
  | [], _, rem => inferInstanceAs (Decidable (rem ≤ 4))
  | L :: Ls, off, rem =>
    have := non_data_ies_decidable buf Ls (off + (L + (4 - L % 4) % 4))
      (rem - (L + (4 - L % 4) % 4))
    inferInstanceAs (Decidable (4 < rem ∧ ntohs_at buf off ≠ 0x0300
      ∧ ntohs_at buf (off + 2) = L ∧ L + (4 - L % 4) % 4 ≤ rem
      ∧ non_data_ies buf Ls (off + (L + (4 - L % 4) % 4)) (rem - (L + (4 - L % 4) % 4))))

/-- Scenario E: a valid common header, one IE with tag 0x0001 and length 8
(a 4-byte value) and 3 further bytes. -/
def scenario_E_msg : msg_t :=
  ⟨m2ua_header 19 ++ (be16 0x0001 ++ be16 8 ++ [0xAA, 0xBB, 0xCC, 0xDD]) ++ [0, 0, 0], 19, 2, 0⟩

/-- An information element: its tag, its value and the padding bytes that
follow it on the wire. -/
structure m2ua_ie where
  tag : Nat
  value : List uint8_t
  pad : List uint8_t
  deriving DecidableEq, Repr

/-- Wire form of an IE: big-endian tag, big-endian length (the 4-byte header
included), the value and the padding. -/
def ie_bytes (e : m2ua_ie) : List uint8_t :=
  be16 e.tag ++ be16 (4 + e.value.length) ++ (e.value ++ e.pad)

/-- Wire form of a sequence of IEs. -/
def ies_bytes : List m2ua_ie → List uint8_t
  | [] => []
  | e :: es => ie_bytes e ++ ies_bytes es

/-- The tag and the length `L = 4 + |value|` of the IE fit in 16 bits and the
IE is followed by `(4 - L mod 4) mod 4` padding bytes. -/
def ie_wf (e : m2ua_ie) : Prop :=
  e.tag < 65536 ∧ 4 + e.value.length ≤ 65535
    ∧ e.pad.length = (4 - (4 + e.value.length) % 4) % 4

instance (e : m2ua_ie) : Decidable (ie_wf e) := by
  unfold ie_wf; infer_instance

/-- A message made of a valid common header, whose declared length is the
buffer length, followed by the IEs. -/
def ies_msg (ies : List m2ua_ie) (ppid proto_type : Nat) : msg_t :=
  { data := m2ua_header (8 + (ies_bytes ies).length) ++ ies_bytes ies,
    len := 8 + (ies_bytes ies).length,
    sctp_ppid := ppid,
    proto_type := proto_type }

/-- The values of `data` (as an offset into the buffer) and of `data_len` at
each evaluation of the loop condition `data_len > 4` of `extract_from_m2ua`,
for at most `fuel` evaluations. -/
def ie_scan_heads (buf : List uint8_t) : Nat → Nat → Nat → List (Nat × Nat)
  | 0, _, _ => []
  | fuel + 1, off, data_len =>
    (off, data_len) ::
      (if data_len > 4 then
        match ie_scan_step buf off data_len with
        | ie_step.next off1 data_len1 => ie_scan_heads buf fuel off1 data_len1
        | _ => []
      else [])

/-- An MTP3 routing label whose 32-bit group holds the bytes 01 00 00 00,
behind the service information octet 0x05. -/
def label_bytes : List uint8_t := [0x05, 0x01, 0x00, 0x00, 0x00]

/-- A message with the unmapped PPID 99. -/
def ppid_99_msg : msg_t := ⟨[], 0, 99, 0⟩

/-- A 13-byte message whose only IE has tag 0x0300 and declares length 0. -/
def short_data_ie_msg : msg_t := ⟨[1, 0, 6, 1, 0, 0, 0, 13, 3, 0, 0, 0, 0], 13, 2, 0⟩

/-- A 24-byte message with declared length 24 holding a non-DATA IE of length
6 (2 bytes of padding) and a DATA IE of length 7. -/
def two_ie_msg : msg_t :=
  ⟨m2ua_header 24 ++ (be16 0x0001 ++ be16 6 ++ [0xAA, 0xBB] ++ [0, 0])
      ++ (be16 0x0300 ++ be16 7 ++ [1, 2, 3] ++ [0]), 24, 2, 0⟩

/-! ## Auxiliary lemmas -/

/-- Reading offset 0 of a non-empty buffer. -/
theorem rd_cons_zero (a : uint8_t) (l : List uint8_t) : rd (a :: l) 0 = a.val := rfl

/-- Reading a later offset skips the first byte. -/
theorem rd_cons_succ (a : uint8_t) (l : List uint8_t) (i : Nat) : rd (a :: l) (i + 1) = rd l i := rfl

/-- Value of `byte n`. -/
theorem byte_val (n : Nat) : (byte n).val = n % 256 := rfl

/-- The scanner looks at the buffer and its length only. -/
theorem extract_from_m2ua_congr (fuel : Nat) (m m' : msg_t) (l : Nat)
    (hd : m.data = m'.data) (hl : m.len = m'.len) :
    extract_from_m2ua fuel m l = extract_from_m2ua fuel m' l := by
  simp only [extract_from_m2ua, hd, hl]

/-- Return value of `ss7_parse_isup` in terms of that of `ss7_extract_payload`. -/
theorem parse_ret_eq (fuel : Nat) (bo : byte_order) (msg : msg_t) (v : out_vars) :
    (ss7_parse_isup fuel bo msg v).ret =
      (ss7_extract_payload fuel bo msg v).ret.map
        (fun p => if p.ptr ≠ none ∧ p.vars.type = MTP_ISUP then (1 : Int) else -1) := by
  cases hr : (ss7_extract_payload fuel bo msg v).ret with
  | none => simp only [ss7_parse_isup, hr, Option.map_none']
  | some p =>
    obtain ⟨ptr, vars⟩ := p
    cases ptr with
    | none => simp [ss7_parse_isup, hr]
    | some q =>
      by_cases ht : vars.type = MTP_ISUP
      · simp [ss7_parse_isup, hr, ht]
      · simp [ss7_parse_isup, hr, ht]

/-- Return value of `ss7_extract_payload` on the M2UA branch. -/
theorem payload_ret_m2ua (fuel : Nat) (bo : byte_order) (msg : msg_t) (v : out_vars)
    (h : msg.sctp_ppid = 2) :
    (ss7_extract_payload fuel bo msg v).ret =
      (extract_from_m2ua fuel msg v.len).ret.bind
        (fun s => (extract_from_mtp bo msg.data s.ptr { v with len := s.len }).ret) := by
  have e := extract_from_m2ua_congr fuel { msg with proto_type := 0x08 } msg v.len rfl rfl
  unfold ss7_extract_payload
  rw [if_pos (show msg.sctp_ppid = SCTP_M2UA_PPID from h)]
  simp only [e]
  cases hr : (extract_from_m2ua fuel msg v.len).ret with
  | none => rfl
  | some s => rfl

/-- Return value of `ss7_extract_payload` on the default branch. -/
theorem payload_ret_other (fuel : Nat) (bo : byte_order) (msg : msg_t) (v : out_vars)
    (h : msg.sctp_ppid ≠ 2) :
    ss7_extract_payload fuel bo msg v
      = ⟨msg, [], [LDEBUG (diag.ppid_not_known msg.sctp_ppid)], some ⟨none, v⟩⟩ := by
  simp [ss7_extract_payload, SCTP_M2UA_PPID, h]

/-- With a valid common header and a declared length within the buffer,
`extract_from_m2ua` is the IE scan started after the header. -/
theorem extract_from_m2ua_scan (fuel : Nat) (msg : msg_t) (len : Nat)
    (h8 : 8 ≤ msg.len) (h0 : rd msg.data 0 = 1) (h1 : rd msg.data 1 = 0)
    (h2 : rd msg.data 2 = 6) (h3 : rd msg.data 3 = 1)
    (hD : ntohl_at msg.data 4 ≤ msg.len) :
    extract_from_m2ua fuel msg len
      = ⟨[0, 1, 2, 3, 4, 5, 6, 7]
            ++ (ie_scan msg.data len fuel 8 (sub32 (ntohl_at msg.data 4) 8)).reads,
          (ie_scan msg.data len fuel 8 (sub32 (ntohl_at msg.data 4) 8)).log,
          (ie_scan msg.data len fuel 8 (sub32 (ntohl_at msg.data 4) 8)).ret⟩ := by
  have h8' : ¬ msg.len < 8 := by omega
  have hD' : ¬ msg.len < ntohl_at msg.data 4 := by omega
  simp [extract_from_m2ua, h8', h0, h1, h2, h3, hD', M2UA_MSG, M2UA_DATA]

/-- The scan of `stuck_msg` never leaves offset 8. -/
theorem ie_scan_stuck (len fuel : Nat) : (ie_scan stuck_msg.data len fuel 8 8).ret = none := by
  induction fuel with
  | zero => rfl
  | succ n ih =>
    have hs : ie_scan_step stuck_msg.data 8 8 = ie_step.next 8 8 := by decide
    simp only [ie_scan, hs]
    simpa using ih

/-- No wrap-around in `ie_len - 4` for `ie_len >= 4`. -/
theorem size_of_int_sub4 (L : Nat) (h4 : 4 ≤ L) (hL : L ≤ 65535) :
    size_of_int ((L : Int) - 4) = L - 4 := by
  unfold size_of_int
  have e : ((L : Int) - 4) % 18446744073709551616 = (L : Int) - 4 :=
    Int.emod_eq_of_lt (by omega) (by omega)
  rw [e]
  omega

/-- No wrap-around in a `uint32_t` subtraction `a - b` with `b <= a`. -/
theorem sub32_of_le (a b : Nat) (ha : a < 4294967296) (hb : b ≤ a) : sub32 a b = a - b := by
  unfold sub32
  omega

/-- Masking with 3 is the remainder modulo 4. -/
theorem land_three (x : Nat) : x &&& 3 = x % 4 := Nat.and_pow_two_sub_one_eq_mod x 2

/-- Result of `ss7_extract_payload` on the message of scenarios A and B. -/
theorem scenario_payload (fuel : Nat) (bo : byte_order) (h payload : List uint8_t)
    (pt : Nat) (v : out_vars) (hh : h.length = 5) (hM : payload.length ≤ 65526) :
    ss7_extract_payload (fuel + 1) bo (scenario_msg h payload 2 pt) v
      = ⟨{ scenario_msg h payload 2 pt with proto_type := 0x08 },
          [0, 1, 2, 3, 4, 5, 6, 7, 8, 9, 10, 11, 12, 13, 14, 15, 16], [],
          some ⟨some 17,
            { len := payload.length,
              opc := ((read_mtp_level_3_hdr bo h 0).opc : Int),
              dpc := ((read_mtp_level_3_hdr bo h 0).dpc : Int),
              type := ((read_mtp_level_3_hdr bo h 0).ser_ind : Int) }⟩⟩ := by
  match h, hh with
  | [a, b, c, d, e], _ =>
    have hlen : ntohl_at (scenario_msg [a, b, c, d, e] payload 2 pt).data 4
        = 17 + payload.length := by
      simp [ntohl_at, scenario_msg, m2ua_header, be32, rd_cons_succ, rd_cons_zero, byte_val]
      omega
    have htag : ntohs_at (scenario_msg [a, b, c, d, e] payload 2 pt).data 8 = 0x0300 := by
      simp [ntohs_at, scenario_msg, m2ua_header, be32, be16, rd_cons_succ, rd_cons_zero,
        byte_val]
    have hie : ntohs_at (scenario_msg [a, b, c, d, e] payload 2 pt).data 10
        = 9 + payload.length := by
      simp [ntohs_at, scenario_msg, m2ua_header, be32, be16, rd_cons_succ, rd_cons_zero,
        byte_val]
      omega
    have hstep : ie_scan_step (scenario_msg [a, b, c, d, e] payload 2 pt).data 8
        (9 + payload.length) = ie_step.found 12 (5 + payload.length) := by
      have hs := size_of_int_sub4 (9 + payload.length) (by omega) (by omega)
      have hs' : size_of_int (((9 + payload.length : Nat) : Int) - 4) = 5 + payload.length := by
        rw [hs]; omega
      simp only [ie_scan_step, htag, hie, M2UA_IE_DATA]
      push_cast at hs'
      simp [hs']
    have hm2ua : ∀ m : msg_t, m.data = (scenario_msg [a, b, c, d, e] payload 2 pt).data →
        m.len = 17 + payload.length →
        extract_from_m2ua (fuel + 1) m v.len
          = ⟨[0, 1, 2, 3, 4, 5, 6, 7, 8, 9, 10, 11], [],
              some ⟨some 12, 5 + payload.length⟩⟩ := by
      intro m hd hl
      rw [extract_from_m2ua_scan (fuel + 1) m v.len (by omega)
        (by rw [hd]; rfl) (by rw [hd]; rfl) (by rw [hd]; rfl) (by rw [hd]; rfl)
        (by rw [hd, hlen, hl])]
      rw [hd, hlen, sub32_of_le _ _ (by omega) (by omega)]
      have e9 : 17 + payload.length - 8 = 9 + payload.length := by omega
      rw [e9]
      have hgt : 9 + payload.length > 4 := by omega
      simp [ie_scan, hgt, hstep, ie_reads]
    have hhdr : read_mtp_level_3_hdr bo (scenario_msg [a, b, c, d, e] payload 2 pt).data 12
        = read_mtp_level_3_hdr bo [a, b, c, d, e] 0 := by
      cases bo <;>
        simp [read_mtp_level_3_hdr, scenario_msg, m2ua_header, be32, be16, rd_cons_succ,
          rd_cons_zero]
    have hsz : sub_size (5 + payload.length) 5 = payload.length := by
      unfold sub_size
      omega
    have hnl : ¬ 5 + payload.length < 5 := by omega
    unfold ss7_extract_payload
    rw [if_pos (show (scenario_msg [a, b, c, d, e] payload 2 pt).sctp_ppid = SCTP_M2UA_PPID
      from rfl)]
    simp only [hm2ua { scenario_msg [a, b, c, d, e] payload 2 pt with proto_type := 0x08 }
      rfl rfl]
    simp [extract_from_mtp, sizeof_mtp_level_3_hdr, hnl, hhdr, hsz]

/-- A scan over non-DATA IEs that fit ends with "no data element found". -/
theorem ie_scan_non_data (buf : List uint8_t) (len : Nat) (Ls : List Nat) :
    ∀ (fuel off rem : Nat), rem < 4294967296 → non_data_ies buf Ls off rem →
      Ls.length < fuel →
      (ie_scan buf len fuel off rem).ret = some ⟨none, len⟩
      ∧ (ie_scan buf len fuel off rem).log = [LERR diag.m2ua_no_data_element] := by
  induction Ls with
  | nil =>
    intro fuel off rem _ h hf
    obtain ⟨f, rfl⟩ : ∃ f, fuel = f + 1 := ⟨fuel - 1, by simp at hf; omega⟩
    have h4 : ¬ rem > 4 := by simp [non_data_ies] at h; omega
    simp [ie_scan, h4]
  | cons L Ls ih =>
    intro fuel off rem hrem h hf
    obtain ⟨f, rfl⟩ : ∃ f, fuel = f + 1 := ⟨fuel - 1, by simp at hf; omega⟩
    obtain ⟨h4, htag, hlen, hfit, hrest⟩ := h
    have hpad : (4 - L % 4) &&& 3 = (4 - L % 4) % 4 := land_three _
    have hstep : ie_scan_step buf off rem
        = ie_step.next (off + (L + (4 - L % 4) % 4)) (rem - (L + (4 - L % 4) % 4)) := by
      have hle : ¬ L > rem := by omega
      have hs1 : sub32 rem L = rem - L := sub32_of_le _ _ hrem (by omega)
      have hs2 : sub32 (rem - L) ((4 - L % 4) % 4) = rem - (L + (4 - L % 4) % 4) := by
        rw [sub32_of_le _ _ (by omega) (by omega)]; omega
      have hnp : ¬ rem - L < (4 - L % 4) % 4 := by omega
      simp only [ie_scan_step, ie_padding, hlen, M2UA_IE_DATA]
      simp [hle, htag, hs1, hpad, hnp, hs2, Nat.add_assoc]
    have hf' : Ls.length < f := by simp at hf; omega
    have := ih f _ _ (by omega) hrest hf'
    have hgt : rem > 4 := h4
    simp [ie_scan, hgt, hstep, this]

/-- Reading behind a prefix. -/
theorem rd_append_right (A B : List uint8_t) (i : Nat) : rd (A ++ B) (A.length + i) = rd B i := by
  induction A with
  | nil => simp
  | cons a A ih =>
    have e : (a :: A).length + i = (A.length + i) + 1 := by simp; omega
    rw [List.cons_append, e, rd_cons_succ, ih]

/-- Reading a 16-bit value behind a prefix. -/
theorem ntohs_at_append (A B : List uint8_t) (i : Nat) :
    ntohs_at (A ++ B) (A.length + i) = ntohs_at B i := by
  unfold ntohs_at
  rw [rd_append_right, Nat.add_assoc, rd_append_right]

/-- Length of a serialised IE. -/
theorem ie_bytes_length (e : m2ua_ie) :
    (ie_bytes e).length = 4 + e.value.length + e.pad.length := by
  simp [ie_bytes, be16]
  omega

/-- The tag read back from a serialised IE. -/
theorem ie_bytes_tag (e : m2ua_ie) (X : List uint8_t) (h : e.tag < 65536) :
    ntohs_at (ie_bytes e ++ X) 0 = e.tag := by
  simp [ntohs_at, ie_bytes, be16, rd_cons_succ, rd_cons_zero, byte_val]
  omega

/-- The length read back from a serialised IE. -/
theorem ie_bytes_len (e : m2ua_ie) (X : List uint8_t) (h : 4 + e.value.length ≤ 65535) :
    ntohs_at (ie_bytes e ++ X) 2 = 4 + e.value.length := by
  simp [ntohs_at, ie_bytes, be16, rd_cons_succ, rd_cons_zero, byte_val]
  omega

/-- One pass of the loop body over a non-DATA IE that fits with its padding. -/
theorem ie_scan_step_next_of (buf : List uint8_t) (off dl L : Nat)
    (e0 : ntohs_at buf off ≠ 0x0300) (e2 : ntohs_at buf (off + 2) = L)
    (hdl : dl < 4294967296) (hfit : L + (4 - L % 4) % 4 ≤ dl) :
    ie_scan_step buf off dl
      = ie_step.next (off + (L + (4 - L % 4) % 4)) (dl - (L + (4 - L % 4) % 4)) := by
  have hpad : (4 - L % 4) &&& 3 = (4 - L % 4) % 4 := land_three _
  have hle : ¬ L > dl := by omega
  have hs1 : sub32 dl L = dl - L := sub32_of_le _ _ hdl (by omega)
  have hs2 : sub32 (dl - L) ((4 - L % 4) % 4) = dl - (L + (4 - L % 4) % 4) := by
    rw [sub32_of_le _ _ (by omega) (by omega)]; omega
  have hnp : ¬ dl - L < (4 - L % 4) % 4 := by omega
  simp only [ie_scan_step, ie_padding, e2, M2UA_IE_DATA]
  simp [hle, e0, hs1, hpad, hnp, hs2, Nat.add_assoc]

/-- One pass of the loop body over a DATA IE of length at least 4. -/
theorem ie_scan_step_found_of (buf : List uint8_t) (off dl L : Nat)
    (e0 : ntohs_at buf off = 0x0300) (e2 : ntohs_at buf (off + 2) = L)
    (h4 : 4 ≤ L) (hL : L ≤ 65535) (hfit : L ≤ dl) :
    ie_scan_step buf off dl = ie_step.found (off + 4) (L - 4) := by
  have hle : ¬ L > dl := by omega
  have hs := size_of_int_sub4 L h4 hL
  simp only [ie_scan_step, e0, e2, M2UA_IE_DATA]
  simp [hle, hs]

/-- The loop body skips a serialised non-DATA IE and its padding. -/
theorem ie_scan_step_skip (A X : List uint8_t) (e : m2ua_ie) (hwf : ie_wf e)
    (ht : e.tag ≠ 0x0300) (dl : Nat) (hdl : dl < 4294967296)
    (hfit : (ie_bytes e).length ≤ dl) :
    ie_scan_step (A ++ (ie_bytes e ++ X)) A.length dl
      = ie_step.next (A.length + (ie_bytes e).length) (dl - (ie_bytes e).length) := by
  obtain ⟨htag, hlen, hpadlen⟩ := hwf
  have e0 : ntohs_at (A ++ (ie_bytes e ++ X)) A.length = e.tag := by
    have := ntohs_at_append A (ie_bytes e ++ X) 0
    rw [Nat.add_zero] at this
    rw [this, ie_bytes_tag e X htag]
  have e2 : ntohs_at (A ++ (ie_bytes e ++ X)) (A.length + 2) = 4 + e.value.length := by
    rw [ntohs_at_append, ie_bytes_len e X hlen]
  have hl : (ie_bytes e).length
      = (4 + e.value.length) + (4 - (4 + e.value.length) % 4) % 4 := by
    rw [ie_bytes_length, hpadlen]
  rw [hl] at hfit ⊢
  exact ie_scan_step_next_of _ _ _ _ (by rw [e0]; exact ht) e2 hdl hfit

/-- The loop body returns the value of a serialised DATA IE. -/
theorem ie_scan_step_found (A X : List uint8_t) (e : m2ua_ie) (hwf : ie_wf e)
    (ht : e.tag = 0x0300) (dl : Nat) (hfit : 4 + e.value.length ≤ dl) :
    ie_scan_step (A ++ (ie_bytes e ++ X)) A.length dl
      = ie_step.found (A.length + 4) e.value.length := by
  obtain ⟨htag, hlen, hpadlen⟩ := hwf
  have e0 : ntohs_at (A ++ (ie_bytes e ++ X)) A.length = e.tag := by
    have := ntohs_at_append A (ie_bytes e ++ X) 0
    rw [Nat.add_zero] at this
    rw [this, ie_bytes_tag e X htag]
  have e2 : ntohs_at (A ++ (ie_bytes e ++ X)) (A.length + 2) = 4 + e.value.length := by
    rw [ntohs_at_append, ie_bytes_len e X hlen]
  have h := ie_scan_step_found_of _ _ dl _ (by rw [e0]; exact ht) e2 (by omega) hlen hfit
  rw [h]
  congr 1
  omega

/-- The scan skips a sequence of serialised non-DATA IEs. -/
theorem ie_scan_skip (len : Nat) (pre : List m2ua_ie) :
    ∀ (A rest : List uint8_t) (fuel : Nat),
      (∀ e ∈ pre, ie_wf e ∧ e.tag ≠ 0x0300) → 4 < rest.length →
      (ies_bytes pre).length + rest.length < 4294967296 →
      (ie_scan (A ++ (ies_bytes pre ++ rest)) len (pre.length + fuel) A.length
          ((ies_bytes pre).length + rest.length)).ret
        = (ie_scan (A ++ (ies_bytes pre ++ rest)) len fuel
            (A.length + (ies_bytes pre).length) rest.length).ret
      ∧ (ie_scan (A ++ (ies_bytes pre ++ rest)) len (pre.length + fuel) A.length
          ((ies_bytes pre).length + rest.length)).log
        = (ie_scan (A ++ (ies_bytes pre ++ rest)) len fuel
            (A.length + (ies_bytes pre).length) rest.length).log := by
  induction pre with
  | nil =>
    intro A rest fuel _ _ _
    simp [ies_bytes]
  | cons e es ih =>
    intro A rest fuel hpre hrest hsize
    have he := hpre e (List.mem_cons_self _ _)
    have hes : ∀ x ∈ es, ie_wf x ∧ x.tag ≠ 0x0300 :=
      fun x hx => hpre x (List.mem_cons_of_mem _ hx)
    simp only [ies_bytes, List.length_append] at hsize ⊢
    have hbuf : A ++ ((ie_bytes e ++ ies_bytes es) ++ rest)
        = A ++ (ie_bytes e ++ (ies_bytes es ++ rest)) := by simp
    have hbuf2 : A ++ ((ie_bytes e ++ ies_bytes es) ++ rest)
        = (A ++ ie_bytes e) ++ (ies_bytes es ++ rest) := by simp
    have hstep := ie_scan_step_skip A (ies_bytes es ++ rest) e he.1 he.2
      ((ie_bytes e).length + (ies_bytes es).length + rest.length) (by omega) (by omega)
    rw [← hbuf] at hstep
    have hfuel : (e :: es).length + fuel = (es.length + fuel) + 1 := by simp; omega
    have hlen4 := ie_bytes_length e
    have hgt : (ie_bytes e).length + (ies_bytes es).length + rest.length > 4 := by omega
    have ih' := ih (A ++ ie_bytes e) rest fuel hes hrest (by omega)
    rw [← hbuf2, List.length_append] at ih'
    have hsub : (ie_bytes e).length + (ies_bytes es).length + rest.length
        - (ie_bytes e).length = (ies_bytes es).length + rest.length := by omega
    rw [hsub] at hstep
    rw [hfuel]
    simp only [ie_scan, hgt, if_true, hstep]
    simpa [Nat.add_assoc] using ih'

/-- Serialisation of a concatenation of IE lists. -/
theorem ies_bytes_append (xs ys : List m2ua_ie) :
    ies_bytes (xs ++ ys) = ies_bytes xs ++ ies_bytes ys := by
  induction xs with
  | nil => rfl
  | cons x xs ih => simp [ies_bytes, ih]

/-- The common header has 8 bytes. -/
theorem m2ua_header_length (D : Nat) : (m2ua_header D).length = 8 := rfl

/-- The declared length read back from the common header. -/
theorem ntohl_at_header (D : Nat) (X : List uint8_t) (hD : D < 4294967296) :
    ntohl_at (m2ua_header D ++ X) 4 = D := by
  simp [ntohl_at, m2ua_header, be32, rd_cons_succ, rd_cons_zero, byte_val]
  omega

/-- The slice between a prefix and a suffix. -/
theorem slice_mid (P v Q : List uint8_t) : slice (P ++ (v ++ Q)) P.length v.length = v := by
  simp [slice]

/-- Result of `extract_from_mtp` on a null pointer. -/
theorem extract_from_mtp_null (bo : byte_order) (buf : List uint8_t) (v : out_vars) :
    extract_from_mtp bo buf none v
      = ⟨[], [], some ⟨none, { v with opc := INT_MAX, dpc := INT_MAX }⟩⟩ := rfl

/-- Result of `extract_from_mtp` on fewer than 5 bytes. -/
theorem extract_from_mtp_short (bo : byte_order) (buf : List uint8_t) (p : Nat) (v : out_vars)
    (h : v.len < 5) :
    extract_from_mtp bo buf (some p) v
      = ⟨[], [LERR (diag.mtp_not_enough_space v.len 5)],
          some ⟨none, { v with opc := INT_MAX, dpc := INT_MAX }⟩⟩ := by
  simp [extract_from_mtp, sizeof_mtp_level_3_hdr, h]

/-- Result of `extract_from_mtp` on at least 5 bytes. -/
theorem extract_from_mtp_ok (bo : byte_order) (buf : List uint8_t) (p : Nat) (v : out_vars)
    (h : 5 ≤ v.len) :
    extract_from_mtp bo buf (some p) v
      = ⟨[p, p + 1, p + 2, p + 3, p + 4], [],
          some ⟨some (p + 5),
            { len := sub_size v.len 5,
              opc := ((read_mtp_level_3_hdr bo buf p).opc : Int),
              dpc := ((read_mtp_level_3_hdr bo buf p).dpc : Int),
              type := ((read_mtp_level_3_hdr bo buf p).ser_ind : Int) }⟩⟩ := by
  have h' : ¬ v.len < 5 := by omega
  simp [extract_from_mtp, sizeof_mtp_level_3_hdr, h']

/-- The decoded point codes are 14-bit values and the service indicator is a
4-bit value. -/
theorem read_mtp_level_3_hdr_bounds (bo : byte_order) (buf : List uint8_t) (p : Nat) :
    (read_mtp_level_3_hdr bo buf p).opc ≤ 16383
    ∧ (read_mtp_level_3_hdr bo buf p).dpc ≤ 16383
    ∧ (read_mtp_level_3_hdr bo buf p).ser_ind ≤ 15 := by
  cases bo <;> simp only [read_mtp_level_3_hdr] <;> omega

/-- The message after `ss7_extract_payload`: the classification field is
written on the M2UA branch only, nothing else changes. -/
theorem payload_msg_eq (fuel : Nat) (bo : byte_order) (msg : msg_t) (v : out_vars) :
    (ss7_extract_payload fuel bo msg v).msg
      = if msg.sctp_ppid = 2 then { msg with proto_type := 0x08 } else msg := by
  by_cases h : msg.sctp_ppid = 2
  · rw [if_pos h]
    unfold ss7_extract_payload
    rw [if_pos (show msg.sctp_ppid = SCTP_M2UA_PPID from h)]
    cases hr : (extract_from_m2ua fuel { msg with proto_type := 0x08 } v.len).ret with
    | none => simp only [hr]
    | some s => simp only [hr]
  · rw [if_neg h, payload_ret_other fuel bo msg v h]

/-- The message after `ss7_parse_isup` is the message after
`ss7_extract_payload`. -/
theorem parse_msg_eq (fuel : Nat) (bo : byte_order) (msg : msg_t) (v : out_vars) :
    (ss7_parse_isup fuel bo msg v).msg = (ss7_extract_payload fuel bo msg v).msg := by
  cases hr : (ss7_extract_payload fuel bo msg v).ret with
  | none => simp only [ss7_parse_isup, hr]
  | some p =>
    obtain ⟨ptr, vars⟩ := p
    cases ptr with
    | none => simp [ss7_parse_isup, hr]
    | some q =>
      by_cases ht : vars.type = MTP_ISUP
      · simp [ss7_parse_isup, hr, ht]
      · simp [ss7_parse_isup, hr, ht]

/-- Masking with 15 is the remainder modulo 16. -/
theorem land_fifteen (x : Nat) : x &&& 0x0F = x % 16 := Nat.and_pow_two_sub_one_eq_mod x 4

/-- A pass of the loop body that reaches the end of the body keeps the sum of
offset and remaining length, provided `data_len` is a `uint32_t` value. -/
theorem ie_scan_step_next_inv (buf : List uint8_t) (off dl o d : Nat)
    (hdl : dl < 4294967296) (h : ie_scan_step buf off dl = ie_step.next o d) :
    o + d = off + dl ∧ off ≤ o := by
  unfold ie_scan_step at h
  simp only [] at h
  split at h
  · cases h
  · split at h
    · split at h
      · cases h
      · injection h with ho hd
        unfold sub32 at *
        omega
    · cases h

/-- The invariant of the scan loop at every evaluation of the loop head. -/
theorem ie_scan_heads_inv (buf : List uint8_t) (D : Nat) :
    ∀ (fuel off dl : Nat), 8 ≤ off → off + dl = D → dl < 4294967296 →
      ∀ s ∈ ie_scan_heads buf fuel off dl, 8 ≤ s.1 ∧ s.1 + s.2 = D := by
  intro fuel
  induction fuel with
  | zero =>
    intro off dl _ _ _ s hs
    simp [ie_scan_heads] at hs
  | succ n ih =>
    intro off dl h8 hsum hdl s hs
    simp only [ie_scan_heads, List.mem_cons] at hs
    rcases hs with rfl | hs
    · exact ⟨h8, hsum⟩
    · by_cases hgt : dl > 4
      · rw [if_pos hgt] at hs
        cases hstep : ie_scan_step buf off dl with
        | fail log => rw [hstep] at hs; simp at hs
        | found ptr l => rw [hstep] at hs; simp at hs
        | next o d =>
          rw [hstep] at hs
          have hinv := ie_scan_step_next_inv buf off dl o d hdl hstep
          exact ih o d (by omega) (by omega) (by omega) s hs
      · rw [if_neg hgt] at hs
        simp at hs

/-- Under the invariant every offset read by the scan loop is below the
declared length. -/
theorem ie_scan_reads_lt (buf : List uint8_t) (len D : Nat) :
    ∀ (fuel off dl : Nat), off + dl = D → dl < 4294967296 →
      ∀ o ∈ (ie_scan buf len fuel off dl).reads, o < D := by
  intro fuel
  induction fuel with
  | zero =>
    intro off dl _ _ o ho
    simp [ie_scan] at ho
  | succ n ih =>
    intro off dl hsum hdl o ho
    by_cases hgt : dl > 4
    · have hr : ∀ x ∈ ie_reads off, x < D := by
        intro x hx
        simp [ie_reads] at hx
        omega
      cases hstep : ie_scan_step buf off dl with
      | fail log =>
        simp only [ie_scan, if_pos hgt, hstep] at ho
        exact hr o ho
      | found ptr l =>
        simp only [ie_scan, if_pos hgt, hstep] at ho
        exact hr o ho
      | next o1 d1 =>
        simp only [ie_scan, if_pos hgt, hstep, List.mem_append] at ho
        have hinv := ie_scan_step_next_inv buf off dl o1 d1 hdl hstep
        rcases ho with ho | ho
        · exact hr o ho
        · exact ih o1 d1 (by omega) (by omega) o ho
    · simp [ie_scan, hgt] at ho

/-- The offsets read by the scan loop are those of the IE headers at the
loop heads where the loop condition holds. -/
theorem ie_scan_reads_heads (buf : List uint8_t) (len : Nat) :
    ∀ (fuel off dl : Nat),
      (ie_scan buf len fuel off dl).reads
        = (((ie_scan_heads buf fuel off dl).filter (fun s => decide (s.2 > 4))).map
            (fun s => ie_reads s.1)).flatten := by
  intro fuel
  induction fuel with
  | zero => intro off dl; rfl
  | succ n ih =>
    intro off dl
    by_cases hgt : dl > 4
    · cases hstep : ie_scan_step buf off dl with
      | fail log => simp [ie_scan, ie_scan_heads, hgt, hstep]
      | found ptr l => simp [ie_scan, ie_scan_heads, hgt, hstep]
      | next o d => simp [ie_scan, ie_scan_heads, hgt, hstep, ih o d]
    · simp [ie_scan, ie_scan_heads, hgt]

/-! ## The claims -/

/-- Claim C1: the return value of `ss7_parse_isup` is that of `ss7_extract_payload`
mapped to 1 when the payload pointer is non-null and the decoded service
indicator is 5 (`MTP_ISUP`) and to -1 in every other case; in particular it
returns 1 if and only if `ss7_extract_payload` yields a non-null payload with
service indicator 5, and an upstream failure and a foreign service indicator
give the same value -1. -/
theorem C1_parse_isup_iff (fuel : Nat) (bo : byte_order) (msg : msg_t) (v : out_vars) :
    (ss7_parse_isup fuel bo msg v).ret =
        (ss7_extract_payload fuel bo msg v).ret.map
          (fun p => if p.ptr ≠ none ∧ p.vars.type = MTP_ISUP then (1 : Int) else -1)
    ∧ ((ss7_parse_isup fuel bo msg v).ret = some 1 ↔
        ∃ p, (ss7_extract_payload fuel bo msg v).ret = some p ∧ p.ptr ≠ none
          ∧ p.vars.type = 5) := by
  refine ⟨parse_ret_eq fuel bo msg v, ?_⟩
  rw [parse_ret_eq]
  cases hr : (ss7_extract_payload fuel bo msg v).ret with
  | none => simp
  | some p =>
    by_cases hc : p.ptr ≠ none ∧ p.vars.type = MTP_ISUP
    · have hc' := hc
      simp only [MTP_ISUP] at hc'
      simp only [Option.map_some', if_pos hc]
      exact ⟨fun _ => ⟨p, rfl, hc'.1, hc'.2⟩, fun _ => trivial⟩
    · simp only [Option.map_some', if_neg hc]
      constructor
      · intro h; simp at h
      · rintro ⟨q, hq, h1, h2⟩
        cases hq
        exact absurd ⟨h1, h2⟩ hc

/-- Claim C2: for every 5-byte MTP3 header `h` and every payload of `M <= 65526`
bytes, on the message with PPID 2 whose buffer is exactly the common header
(1, 0, 6, 1, total length `17 + M`) followed by one IE with tag 0x0300 and
length `9 + M` holding `h` and the payload, `ss7_parse_isup` returns 1 when the
service indicator of `h` is 5, and returns -1 with the single debug-severity
diagnostic "ISUP service indicator not ISUP" when it is any other value; the
scan needs one iteration, on either host byte order. -/
theorem C2_scenario_A_B (fuel : Nat) (bo : byte_order) (h payload : List uint8_t)
    (pt : Nat) (v : out_vars) (hh : h.length = 5) (hM : payload.length ≤ 65526) :
    (scenario_msg h payload 2 pt).data.length = (scenario_msg h payload 2 pt).len
    ∧ ((read_mtp_level_3_hdr bo h 0).ser_ind = 5 →
        (ss7_parse_isup (fuel + 1) bo (scenario_msg h payload 2 pt) v).ret = some 1)
    ∧ ((read_mtp_level_3_hdr bo h 0).ser_ind ≠ 5 →
        (ss7_parse_isup (fuel + 1) bo (scenario_msg h payload 2 pt) v).ret = some (-1)
        ∧ (ss7_parse_isup (fuel + 1) bo (scenario_msg h payload 2 pt) v).log
            = [LDEBUG (diag.isup_not_isup ((read_mtp_level_3_hdr bo h 0).ser_ind : Int))]
        ∧ ProtocolMismatch
            (ss7_parse_isup (fuel + 1) bo (scenario_msg h payload 2 pt) v).log) := by
  have hp := scenario_payload fuel bo h payload pt v hh hM
  refine ⟨?_, ?_, ?_⟩
  · simp [scenario_msg, m2ua_header, be32, be16, hh]
    omega
  · intro h5
    simp [ss7_parse_isup, hp, h5, MTP_ISUP]
  · intro h5
    have h5' : ¬ ((read_mtp_level_3_hdr bo h 0).ser_ind : Int) = 5 := by
      exact_mod_cast h5
    simp [ss7_parse_isup, hp, h5', MTP_ISUP, ProtocolMismatch, LDEBUG]

/-- Scenarios A and B of claim C2 on a 20-byte message with service indicator 5,
respectively 3. -/
theorem C2_scenario_A_B_witness :
    (ss7_parse_isup 1 byte_order.little (scenario_msg [0x85, 1, 2, 3, 4] [9, 9, 9] 2 0)
        ⟨0, 0, 0, 0⟩).ret = some 1
    ∧ (ss7_parse_isup 1 byte_order.little (scenario_msg [0x83, 1, 2, 3, 4] [9, 9, 9] 2 0)
        ⟨0, 0, 0, 0⟩).ret = some (-1) :=
  ⟨(C2_scenario_A_B 0 byte_order.little [0x85, 1, 2, 3, 4] [9, 9, 9] 0 ⟨0, 0, 0, 0⟩
      (by decide) (by decide)).2.1 (by decide),
   ((C2_scenario_A_B 0 byte_order.little [0x83, 1, 2, 3, 4] [9, 9, 9] 0 ⟨0, 0, 0, 0⟩
      (by decide) (by decide)).2.2 (by decide)).1⟩

/-- Claim C3 at a failing input: on the 8-byte message whose common header is
valid and declares total length 0, `data_len -= 8` wraps around to
`2^32 - 8`, the loop is entered and its first iteration reads the offsets 8
to 11, which are not below `msg->len = 8`. -/
theorem C3_scan_reads_past_buffer :
    overread_msg.data.length = 8 ∧ overread_msg.len = 8
    ∧ (extract_from_m2ua 1 overread_msg 0).reads = [0, 1, 2, 3, 4, 5, 6, 7, 8, 9, 10, 11]
    ∧ ¬ (∀ o ∈ (extract_from_m2ua 1 overread_msg 0).reads, o < overread_msg.len) := by
  decide

/-- Claim C4 at a failing input: on the 16-byte message whose first IE has tag
0x0001 and declared length 0, one pass through the loop body leaves `data`
at offset 8 and `data_len` at 8, so that `data_len` does not decrease and
`extract_from_m2ua` does not return within any number of iterations. -/
theorem C4_zero_length_ie_never_returns :
    stuck_msg.data.length = 16 ∧ stuck_msg.len = 16
    ∧ ie_scan_step stuck_msg.data 8 8 = ie_step.next 8 8
    ∧ ∀ fuel len : Nat, (extract_from_m2ua fuel stuck_msg len).ret = none := by
  refine ⟨by decide, by decide, by decide, ?_⟩
  intro fuel len
  rw [extract_from_m2ua_scan fuel stuck_msg len (by decide) (by decide) (by decide)
    (by decide) (by decide) (by decide)]
  have hd : sub32 (ntohl_at stuck_msg.data 4) 8 = 8 := by decide
  rw [hd]
  exact ie_scan_stuck len fuel

/-- Claim C5: for every message whose PPID is not 2, `ss7_parse_isup` returns -1,
logs the single debug-severity diagnostic "SS7 SCTP PPID not known", reads no
byte and leaves the message as it was; the return value and the diagnostic
are the same for every buffer content and every length. -/
theorem C5_unknown_ppid (fuel : Nat) (bo : byte_order) (msg : msg_t) (v : out_vars)
    (h : msg.sctp_ppid ≠ 2) :
    ss7_parse_isup fuel bo msg v
        = ⟨msg, [], [LDEBUG (diag.ppid_not_known msg.sctp_ppid)], some (-1)⟩
    ∧ ProtocolMismatch (ss7_parse_isup fuel bo msg v).log
    ∧ ∀ (d : List uint8_t) (l : Nat),
        (ss7_parse_isup fuel bo { msg with data := d, len := l } v).ret
            = (ss7_parse_isup fuel bo msg v).ret
        ∧ (ss7_parse_isup fuel bo { msg with data := d, len := l } v).log
            = (ss7_parse_isup fuel bo msg v).log
        ∧ (ss7_parse_isup fuel bo { msg with data := d, len := l } v).reads = [] := by
  have key : ∀ m : msg_t, m.sctp_ppid ≠ 2 → ss7_parse_isup fuel bo m v
        = ⟨m, [], [LDEBUG (diag.ppid_not_known m.sctp_ppid)], some (-1)⟩ := by
    intro m hm
    simp [ss7_parse_isup, payload_ret_other fuel bo m v hm]
  refine ⟨key msg h, ?_, ?_⟩
  · rw [key msg h]
    simp [ProtocolMismatch, LDEBUG]
  · intro d l
    rw [key msg h, key { msg with data := d, len := l } h]
    simp

/-- Scenario C of claim C5: PPID 99. -/
theorem C5_unknown_ppid_witness :
    (99 : Nat) ≠ 2 ∧ ss7_parse_isup 0 byte_order.little ⟨[], 0, 99, 0⟩ ⟨0, 0, 0, 0⟩
      = ⟨⟨[], 0, 99, 0⟩, [], [LDEBUG (diag.ppid_not_known 99)], some (-1)⟩ :=
  ⟨by decide, (C5_unknown_ppid 0 byte_order.little ⟨[], 0, 99, 0⟩ ⟨0, 0, 0, 0⟩ (by decide)).1⟩

/-- Claim C6: for every message of at least 8 bytes whose header bytes 0 to 3 are
1, 0, 6, 1 and whose big-endian declared length in bytes 4 to 7 exceeds
`msg->len`, `extract_from_m2ua` returns `NULL` with the single error-severity
diagnostic "M2UA data can not fit" after reading the offsets 0 to 7 only (no
IE is read), and `ss7_parse_isup` returns -1. -/
theorem C6_declared_length_exceeds (fuel : Nat) (bo : byte_order) (msg : msg_t) (len : Nat) (v : out_vars)
    (h8 : 8 ≤ msg.len) (h0 : rd msg.data 0 = 1) (h1 : rd msg.data 1 = 0)
    (h2 : rd msg.data 2 = 6) (h3 : rd msg.data 3 = 1)
    (hD : msg.len < ntohl_at msg.data 4) :
    extract_from_m2ua fuel msg len
        = ⟨[0, 1, 2, 3, 4, 5, 6, 7],
           [LERR (diag.m2ua_cant_fit msg.len (ntohl_at msg.data 4))], some ⟨none, len⟩⟩
    ∧ Malformed (extract_from_m2ua fuel msg len).log
    ∧ (ss7_parse_isup fuel bo msg v).ret = some (-1) := by
  have e : ∀ (l : Nat),
      extract_from_m2ua fuel msg l
        = ⟨[0, 1, 2, 3, 4, 5, 6, 7],
           [LERR (diag.m2ua_cant_fit msg.len (ntohl_at msg.data 4))], some ⟨none, l⟩⟩ := by
    intro l
    have h8' : ¬ msg.len < 8 := by omega
    simp [extract_from_m2ua, h8', h0, h1, h2, h3, hD, M2UA_MSG, M2UA_DATA]
  refine ⟨e len, ?_, ?_⟩
  · rw [e len]
    exact ⟨_, List.mem_singleton.mpr rfl, rfl⟩
  · rw [parse_ret_eq]
    by_cases hp : msg.sctp_ppid = 2
    · rw [payload_ret_m2ua fuel bo msg v hp, e]
      simp [extract_from_mtp]
    · rw [payload_ret_other fuel bo msg v hp]
      simp

/-- Scenario D of claim C6: declared length 1000 in a 50-byte buffer. -/
theorem C6_declared_length_exceeds_witness :
    ntohl_at short_declared_msg.data 4 = 1000 ∧ short_declared_msg.len = 50
    ∧ short_declared_msg.data.length = 50
    ∧ (extract_from_m2ua 5 short_declared_msg 0).ret = some ⟨none, 0⟩
    ∧ (ss7_parse_isup 5 byte_order.little short_declared_msg ⟨0, 0, 0, 0⟩).ret = some (-1) :=
  have h := C6_declared_length_exceeds 5 byte_order.little short_declared_msg 0 ⟨0, 0, 0, 0⟩
    (by decide) (by decide) (by decide) (by decide) (by decide) (by decide)
  ⟨by decide, by decide, by decide, by rw [h.1], h.2.2⟩

/-- Claim C7: for every message with `msg->len < 8`, `extract_from_m2ua` returns
`NULL` with the single error-severity diagnostic "M2UA hdr too short", leaves
`*len` as it was and reads no byte of the buffer. -/
theorem C7_short_buffer (fuel : Nat) (msg : msg_t) (len : Nat) (h : msg.len < 8) :
    extract_from_m2ua fuel msg len
        = ⟨[], [LERR (diag.m2ua_hdr_too_short msg.len)], some ⟨none, len⟩⟩
    ∧ Malformed (extract_from_m2ua fuel msg len).log := by
  have e : extract_from_m2ua fuel msg len
        = ⟨[], [LERR (diag.m2ua_hdr_too_short msg.len)], some ⟨none, len⟩⟩ := by
    simp [extract_from_m2ua, h]
  refine ⟨e, ?_⟩
  rw [e]
  exact ⟨_, List.mem_singleton.mpr rfl, rfl⟩

/-- Claim C7 on the empty message. -/
theorem C7_short_buffer_witness :
    (0 : Nat) < 8 ∧ extract_from_m2ua 0 ⟨[], 0, 2, 0⟩ 7
      = ⟨[], [LERR (diag.m2ua_hdr_too_short 0)], some ⟨none, 7⟩⟩ :=
  ⟨by decide, (C7_short_buffer 0 ⟨[], 0, 2, 0⟩ 7 (by decide)).1⟩

/-- Claim C8: for every message of at least 8 bytes the common header is checked
in this order: byte 0 other than 1 gives `NULL` with an error-severity
diagnostic; else byte 1 other than 0 gives `NULL` with an error-severity
diagnostic; else byte 2 other than 6 gives `NULL` with a debug-severity
diagnostic; else byte 3 other than 1 gives `NULL` with a debug-severity
diagnostic; in each case only the header bytes up to the offending one are
read, neither the declared length nor any IE. -/
theorem C8_header_checks (fuel : Nat) (msg : msg_t) (len : Nat) (h8 : 8 ≤ msg.len) :
    (rd msg.data 0 ≠ 1 →
      extract_from_m2ua fuel msg len
        = ⟨[0], [LERR (diag.m2ua_unknown_version (rd msg.data 0))], some ⟨none, len⟩⟩)
    ∧ (rd msg.data 0 = 1 → rd msg.data 1 ≠ 0 →
      extract_from_m2ua fuel msg len
        = ⟨[0, 1], [LERR (diag.m2ua_unknown_reserved (rd msg.data 1))], some ⟨none, len⟩⟩)
    ∧ (rd msg.data 0 = 1 → rd msg.data 1 = 0 → rd msg.data 2 ≠ 6 →
      extract_from_m2ua fuel msg len
        = ⟨[0, 1, 2], [LDEBUG (diag.m2ua_unhandled_class (rd msg.data 2))], some ⟨none, len⟩⟩)
    ∧ (rd msg.data 0 = 1 → rd msg.data 1 = 0 → rd msg.data 2 = 6 → rd msg.data 3 ≠ 1 →
      extract_from_m2ua fuel msg len
        = ⟨[0, 1, 2, 3], [LDEBUG (diag.m2ua_not_data_msg (rd msg.data 3))],
            some ⟨none, len⟩⟩) := by
  have h8' : ¬ msg.len < 8 := by omega
  refine ⟨?_, ?_, ?_, ?_⟩
  · intro h0
    simp [extract_from_m2ua, h8', h0]
  · intro h0 h1
    simp [extract_from_m2ua, h8', h0, h1]
  · intro h0 h1 h2
    simp [extract_from_m2ua, h8', h0, h1, h2, M2UA_MSG]
  · intro h0 h1 h2 h3
    simp [extract_from_m2ua, h8', h0, h1, h2, h3, M2UA_MSG, M2UA_DATA]

/-- Claim C8 on four 8-byte messages, one for each of the four checks. -/
theorem C8_header_checks_witness :
    extract_from_m2ua 3 ⟨[2, 0, 6, 1, 0, 0, 0, 8], 8, 2, 0⟩ 0
        = ⟨[0], [(severity.error, diag.m2ua_unknown_version 2)], some ⟨none, 0⟩⟩
    ∧ extract_from_m2ua 3 ⟨[1, 7, 6, 1, 0, 0, 0, 8], 8, 2, 0⟩ 0
        = ⟨[0, 1], [(severity.error, diag.m2ua_unknown_reserved 7)], some ⟨none, 0⟩⟩
    ∧ extract_from_m2ua 3 ⟨[1, 0, 3, 1, 0, 0, 0, 8], 8, 2, 0⟩ 0
        = ⟨[0, 1, 2], [(severity.debug, diag.m2ua_unhandled_class 3)], some ⟨none, 0⟩⟩
    ∧ extract_from_m2ua 3 ⟨[1, 0, 6, 2, 0, 0, 0, 8], 8, 2, 0⟩ 0
        = ⟨[0, 1, 2, 3], [(severity.debug, diag.m2ua_not_data_msg 2)], some ⟨none, 0⟩⟩ :=
  ⟨(C8_header_checks 3 ⟨[2, 0, 6, 1, 0, 0, 0, 8], 8, 2, 0⟩ 0 (by decide)).1 (by decide),
   (C8_header_checks 3 ⟨[1, 7, 6, 1, 0, 0, 0, 8], 8, 2, 0⟩ 0 (by decide)).2.1
     (by decide) (by decide),
   (C8_header_checks 3 ⟨[1, 0, 3, 1, 0, 0, 0, 8], 8, 2, 0⟩ 0 (by decide)).2.2.1
     (by decide) (by decide) (by decide),
   (C8_header_checks 3 ⟨[1, 0, 6, 2, 0, 0, 0, 8], 8, 2, 0⟩ 0 (by decide)).2.2.2
     (by decide) (by decide) (by decide) (by decide)⟩

/-- Claim C9 fails as stated: on scenario E (valid header, one IE with tag
0x0001 and length 8, then 3 bytes) the scan ends with 3 bytes remaining and
`extract_from_m2ua` returns `NULL` with an error-severity diagnostic, which is
`Malformed` and not `ProtocolMismatch`. -/
theorem C9_counterexample :
    scenario_E_msg.data.length = scenario_E_msg.len
    ∧ ntohl_at scenario_E_msg.data 4 = scenario_E_msg.len
    ∧ non_data_ies scenario_E_msg.data [8] 8 (sub32 (ntohl_at scenario_E_msg.data 4) 8)
    ∧ (extract_from_m2ua 2 scenario_E_msg 0).ret = some ⟨none, 0⟩
    ∧ Malformed (extract_from_m2ua 2 scenario_E_msg 0).log
    ∧ ¬ ProtocolMismatch (extract_from_m2ua 2 scenario_E_msg 0).log := by
  decide

/-- Claim C9 as amended: for every message with a valid common header and a
declared length within the buffer whose bytes from offset 8 on are a
sequence of IEs, none tagged 0x0300, each fitting with its padding in the
remaining bytes, after which at most 4 bytes remain, `extract_from_m2ua`
returns `NULL` with the single diagnostic "M2UA no data element found", and
that diagnostic is logged at error severity (`Malformed`), not at debug
severity (`ProtocolMismatch`). -/
theorem C9_no_data_ie_found (fuel : Nat) (msg : msg_t) (len : Nat) (Ls : List Nat)
    (h8 : 8 ≤ msg.len) (h0 : rd msg.data 0 = 1) (h1 : rd msg.data 1 = 0)
    (h2 : rd msg.data 2 = 6) (h3 : rd msg.data 3 = 1)
    (hD : ntohl_at msg.data 4 ≤ msg.len)
    (hies : non_data_ies msg.data Ls 8 (sub32 (ntohl_at msg.data 4) 8))
    (hf : Ls.length < fuel) :
    (extract_from_m2ua fuel msg len).ret = some ⟨none, len⟩
    ∧ (extract_from_m2ua fuel msg len).log = [LERR diag.m2ua_no_data_element]
    ∧ Malformed (extract_from_m2ua fuel msg len).log
    ∧ ¬ ProtocolMismatch (extract_from_m2ua fuel msg len).log := by
  have hlt : sub32 (ntohl_at msg.data 4) 8 < 4294967296 := by
    unfold sub32
    omega
  rw [extract_from_m2ua_scan fuel msg len h8 h0 h1 h2 h3 hD]
  have := ie_scan_non_data msg.data len Ls fuel 8 _ hlt hies hf
  refine ⟨this.1, this.2, ?_, ?_⟩
  · simp only [this.2]
    exact ⟨_, List.mem_singleton.mpr rfl, rfl⟩
  · simp only [this.2]
    decide

/-- Amended claim C9 on scenario E. -/
theorem C9_no_data_ie_found_witness :
    (extract_from_m2ua 2 scenario_E_msg 0).ret = some ⟨none, 0⟩
    ∧ (extract_from_m2ua 2 scenario_E_msg 0).log = [(severity.error, diag.m2ua_no_data_element)] :=
  have h := C9_no_data_ie_found 2 scenario_E_msg 0 [8] (by decide) (by decide) (by decide)
    (by decide) (by decide) (by decide) (by decide) (by decide)
  ⟨h.1, h.2.1⟩

/-- Claim C10: for IEs `pre ++ k :: post` serialised with big-endian tag and
length `L = 4 + |value| <= 65535` and `(4 - L mod 4) mod 4` padding bytes,
behind a valid common header whose declared length is the buffer length, if
`k` is the first IE with tag 0x0300 and more than 4 bytes remain at its
start, then `extract_from_m2ua` returns the pointer 4 bytes after the start
of `k` with `*len = L_k - 4` and logs nothing, and the slice so described is
exactly the value of `k`; nothing is assumed about the later IEs `post`. -/
theorem C10_first_data_ie_wins (fuel len : Nat) (pre : List m2ua_ie) (k : m2ua_ie)
    (post : List m2ua_ie) (ppid pt : Nat)
    (hpre : ∀ e ∈ pre, ie_wf e ∧ e.tag ≠ 0x0300)
    (hk : ie_wf k ∧ k.tag = 0x0300)
    (hsize : 8 + (ies_bytes (pre ++ k :: post)).length < 4294967296)
    (hrem : 4 < (ies_bytes (k :: post)).length)
    (hf : pre.length < fuel) :
    (ies_msg (pre ++ k :: post) ppid pt).data.length = (ies_msg (pre ++ k :: post) ppid pt).len
    ∧ (extract_from_m2ua fuel (ies_msg (pre ++ k :: post) ppid pt) len).ret
        = some ⟨some (8 + (ies_bytes pre).length + 4), k.value.length⟩
    ∧ (extract_from_m2ua fuel (ies_msg (pre ++ k :: post) ppid pt) len).log = []
    ∧ slice (ies_msg (pre ++ k :: post) ppid pt).data (8 + (ies_bytes pre).length + 4)
        k.value.length = k.value := by
  obtain ⟨f, rfl⟩ : ∃ f, fuel = pre.length + (f + 1) := ⟨fuel - pre.length - 1, by omega⟩
  have hb : ies_bytes (pre ++ k :: post) = ies_bytes pre ++ (ie_bytes k ++ ies_bytes post) := by
    rw [ies_bytes_append]; rfl
  have hkl := ie_bytes_length k
  simp only [ies_bytes, List.length_append] at hrem
  rw [hb, List.length_append, List.length_append] at hsize
  have hdata : (ies_msg (pre ++ k :: post) ppid pt).data
      = m2ua_header (8 + (ies_bytes (pre ++ k :: post)).length)
          ++ (ies_bytes pre ++ (ie_bytes k ++ ies_bytes post)) := by
    simp [ies_msg, hb]
  have hlen : (ies_msg (pre ++ k :: post) ppid pt).len
      = 8 + (ies_bytes (pre ++ k :: post)).length := rfl
  have hD : ntohl_at (ies_msg (pre ++ k :: post) ppid pt).data 4
      = 8 + (ies_bytes (pre ++ k :: post)).length := by
    rw [hdata]
    exact ntohl_at_header _ _ (by rw [hb, List.length_append, List.length_append]; omega)
  have hscan := extract_from_m2ua_scan (pre.length + (f + 1))
    (ies_msg (pre ++ k :: post) ppid pt) len (by rw [hlen]; omega)
    (by rw [hdata]; rfl) (by rw [hdata]; rfl) (by rw [hdata]; rfl) (by rw [hdata]; rfl)
    (by rw [hD, hlen])
  have hsub : sub32 (ntohl_at (ies_msg (pre ++ k :: post) ppid pt).data 4) 8
      = (ies_bytes pre).length + (ie_bytes k ++ ies_bytes post).length := by
    rw [hD, sub32_of_le _ _ (by rw [hb, List.length_append, List.length_append]; omega)
      (by omega), hb, List.length_append]
    omega
  rw [hsub, hdata] at hscan
  have hskip := ie_scan_skip len pre (m2ua_header (8 + (ies_bytes (pre ++ k :: post)).length))
    (ie_bytes k ++ ies_bytes post) (f + 1) hpre
    (by rw [List.length_append]; omega) (by rw [List.length_append]; omega)
  have hfound := ie_scan_step_found
    (m2ua_header (8 + (ies_bytes (pre ++ k :: post)).length) ++ ies_bytes pre)
    (ies_bytes post) k hk.1 hk.2 (ie_bytes k ++ ies_bytes post).length
    (by rw [List.length_append]; omega)
  rw [List.append_assoc, List.length_append, m2ua_header_length] at hfound
  have hgt : (ie_bytes k ++ ies_bytes post).length > 4 := by
    rw [List.length_append]; omega
  have hlast : ie_scan (m2ua_header (8 + (ies_bytes (pre ++ k :: post)).length)
        ++ (ies_bytes pre ++ (ie_bytes k ++ ies_bytes post))) len (f + 1)
        (8 + (ies_bytes pre).length) (ie_bytes k ++ ies_bytes post).length
      = ⟨ie_reads (8 + (ies_bytes pre).length), [],
          some ⟨some (8 + (ies_bytes pre).length + 4), k.value.length⟩⟩ := by
    simp only [ie_scan, hgt, if_true, hfound]
  rw [m2ua_header_length, hlast] at hskip
  refine ⟨?_, ?_, ?_, ?_⟩
  · rw [hdata, hlen, hb]
    simp [m2ua_header_length]
  · rw [hscan]
    exact hskip.1
  · rw [hscan]
    exact hskip.2
  · rw [hdata]
    have hs := slice_mid
      (m2ua_header (8 + (ies_bytes (pre ++ k :: post)).length) ++ ies_bytes pre
        ++ (be16 k.tag ++ be16 (4 + k.value.length)))
      k.value (k.pad ++ ies_bytes post)
    have hl : (m2ua_header (8 + (ies_bytes (pre ++ k :: post)).length) ++ ies_bytes pre
        ++ (be16 k.tag ++ be16 (4 + k.value.length))).length
        = 8 + (ies_bytes pre).length + 4 := by
      simp [m2ua_header_length, be16]
      omega
    rw [hl] at hs
    have hbuf : m2ua_header (8 + (ies_bytes (pre ++ k :: post)).length)
          ++ (ies_bytes pre ++ (ie_bytes k ++ ies_bytes post))
        = m2ua_header (8 + (ies_bytes (pre ++ k :: post)).length) ++ ies_bytes pre
          ++ (be16 k.tag ++ be16 (4 + k.value.length))
          ++ (k.value ++ (k.pad ++ ies_bytes post)) := by
      simp [ie_bytes]
    rw [hbuf]
    exact hs

/-- Claim C10 on a message with a non-DATA IE, a DATA IE with value 1, 2, 3 and a
later DATA IE. -/
theorem C10_first_data_ie_wins_witness :
    (extract_from_m2ua 2
        (ies_msg ([⟨0x0001, [0xAA, 0xBB, 0xCC, 0xDD, 0xEE], [0, 0, 0]⟩]
          ++ ⟨0x0300, [1, 2, 3], [0]⟩ :: [⟨0x0300, [9], [0, 0, 0]⟩]) 2 0) 0).ret
      = some ⟨some 24, 3⟩
    ∧ slice (ies_msg ([⟨0x0001, [0xAA, 0xBB, 0xCC, 0xDD, 0xEE], [0, 0, 0]⟩]
          ++ ⟨0x0300, [1, 2, 3], [0]⟩ :: [⟨0x0300, [9], [0, 0, 0]⟩]) 2 0).data 24 3
      = [1, 2, 3] :=
  have h := C10_first_data_ie_wins 2 0 [⟨0x0001, [0xAA, 0xBB, 0xCC, 0xDD, 0xEE], [0, 0, 0]⟩]
    ⟨0x0300, [1, 2, 3], [0]⟩ [⟨0x0300, [9], [0, 0, 0]⟩] 2 0
    (by decide) (by decide) (by decide) (by decide) (by decide)
  ⟨h.2.1, h.2.2.2⟩

/-- Claim C11: `extract_from_mtp` returns a non-null pointer if and only if its
input pointer is non-null and `*len >= 5`; with `*len = 5` it returns the
pointer behind the 5 header bytes with `*len = 0`, an empty remainder; on a
null pointer or with `*len <= 4` it returns `NULL` with `*opc = *dpc =
INT_MAX` and `*len` and `*type` unchanged. -/
theorem C11_mtp_header_length (bo : byte_order) (buf : List uint8_t) (data : Option Nat)
    (v : out_vars) :
    ((∃ m, (extract_from_mtp bo buf data v).ret = some m ∧ m.ptr ≠ none)
        ↔ (data ≠ none ∧ 5 ≤ v.len))
    ∧ (∀ p, data = some p → v.len = 5 →
        ∃ vars, (extract_from_mtp bo buf data v).ret = some ⟨some (p + 5), vars⟩
          ∧ vars.len = 0 ∧ slice buf (p + 5) vars.len = [])
    ∧ (data = none ∨ v.len ≤ 4 →
        (extract_from_mtp bo buf data v).ret
          = some ⟨none, { len := v.len, opc := INT_MAX, dpc := INT_MAX, type := v.type }⟩) := by
  refine ⟨?_, ?_, ?_⟩
  · cases data with
    | none => simp [extract_from_mtp_null]
    | some p =>
      by_cases h : 5 ≤ v.len
      · simp [extract_from_mtp_ok bo buf p v h, h]
      · have h' : v.len < 5 := by omega
        simp [extract_from_mtp_short bo buf p v h', h]
  · rintro p rfl h5
    rw [extract_from_mtp_ok bo buf p v (by omega)]
    refine ⟨_, rfl, ?_, ?_⟩
    · simp only [h5]; decide
    · simp only [h5]
      have : sub_size 5 5 = 0 := by decide
      simp [this, slice]
  · intro h
    cases data with
    | none => rfl
    | some p =>
      have h' : v.len < 5 := by
        rcases h with h | h
        · cases h
        · omega
      rw [extract_from_mtp_short bo buf p v h']

/-- Claim C11 on a 4-byte slice, a null slice and a 5-byte slice. -/
theorem C11_mtp_header_length_witness :
    (extract_from_mtp byte_order.little label_bytes (some 0) ⟨4, 1, 2, 3⟩).ret
        = some ⟨none, ⟨4, INT_MAX, INT_MAX, 3⟩⟩
    ∧ (extract_from_mtp byte_order.little label_bytes none ⟨9, 1, 2, 3⟩).ret
        = some ⟨none, ⟨9, INT_MAX, INT_MAX, 3⟩⟩
    ∧ ∃ vars, (extract_from_mtp byte_order.little label_bytes (some 0) ⟨5, 1, 2, 3⟩).ret
        = some ⟨some (0 + 5), vars⟩ ∧ vars.len = 0 ∧ slice label_bytes (0 + 5) vars.len = [] :=
  ⟨(C11_mtp_header_length byte_order.little label_bytes (some 0) ⟨4, 1, 2, 3⟩).2.2
      (Or.inr (by decide)),
   (C11_mtp_header_length byte_order.little label_bytes none ⟨9, 1, 2, 3⟩).2.2 (Or.inl rfl),
   (C11_mtp_header_length byte_order.little label_bytes (some 0) ⟨5, 1, 2, 3⟩).2.1 0 rfl rfl⟩

/-- Claim C12 at a failing input: the service indicator is the same under both
variants of `struct mtp_level_3_hdr`, but on the routing label 05 01 00 00 00
the little-endian variant yields opc 0 and dpc 1 and the big-endian variant
yields opc 1024 and dpc 0. -/
theorem C12_byte_order_dependent :
    (∀ (buf : List uint8_t) (p : Nat),
        (read_mtp_level_3_hdr byte_order.little buf p).ser_ind
          = (read_mtp_level_3_hdr byte_order.big buf p).ser_ind)
    ∧ (extract_from_mtp byte_order.little label_bytes (some 0) ⟨5, 0, 0, 0⟩).ret
        = some ⟨some 5, ⟨0, 0, 1, 5⟩⟩
    ∧ (extract_from_mtp byte_order.big label_bytes (some 0) ⟨5, 0, 0, 0⟩).ret
        = some ⟨some 5, ⟨0, 1024, 0, 5⟩⟩ := by
  refine ⟨fun buf p => rfl, by decide, by decide⟩

/-- Claim C13 at a failing input: on a message with PPID 99 and with `opc = 7`,
`dpc = 9` before the call, `ss7_extract_payload` returns `NULL` and leaves
`opc = 7` and `dpc = 9`, neither of which is `INT_MAX`. -/
theorem C13_unknown_ppid_keeps_point_codes :
    ∀ (fuel : Nat) (bo : byte_order),
      ss7_extract_payload fuel bo ppid_99_msg ⟨0, 7, 9, 0⟩
        = ⟨ppid_99_msg, [], [LDEBUG (diag.ppid_not_known 99)], some ⟨none, ⟨0, 7, 9, 0⟩⟩⟩
      ∧ (7 : Int) ≠ INT_MAX ∧ (9 : Int) ≠ INT_MAX := by
  intro fuel bo
  exact ⟨payload_ret_other fuel bo ppid_99_msg ⟨0, 7, 9, 0⟩ (by decide), by decide, by decide⟩

/-- Claim C14: whenever `ss7_parse_isup` returns 1, the classification field
`rcinfo.proto_type` of the message is 0x08 after the call and the buffer
bytes, the length and the PPID of the message are those before the call. -/
theorem C14_success_sets_proto_type (fuel : Nat) (bo : byte_order) (msg : msg_t)
    (v : out_vars) (h : (ss7_parse_isup fuel bo msg v).ret = some 1) :
    (ss7_parse_isup fuel bo msg v).msg.proto_type = 0x08
    ∧ (ss7_parse_isup fuel bo msg v).msg.data = msg.data
    ∧ (ss7_parse_isup fuel bo msg v).msg.len = msg.len
    ∧ (ss7_parse_isup fuel bo msg v).msg.sctp_ppid = msg.sctp_ppid := by
  have hp : msg.sctp_ppid = 2 := by
    by_contra hne
    rw [parse_ret_eq, payload_ret_other fuel bo msg v hne] at h
    simp at h
  rw [parse_msg_eq, payload_msg_eq, if_pos hp]
  exact ⟨rfl, rfl, rfl, rfl⟩

/-- Claim C14 on the message of scenario A. -/
theorem C14_success_sets_proto_type_witness :
    (ss7_parse_isup 1 byte_order.little (scenario_msg [0x85, 1, 2, 3, 4] [9, 9, 9] 2 0)
        ⟨0, 0, 0, 0⟩).ret = some 1
    ∧ (ss7_parse_isup 1 byte_order.little (scenario_msg [0x85, 1, 2, 3, 4] [9, 9, 9] 2 0)
        ⟨0, 0, 0, 0⟩).msg.proto_type = 0x08 :=
  ⟨by decide,
   (C14_success_sets_proto_type 1 byte_order.little
      (scenario_msg [0x85, 1, 2, 3, 4] [9, 9, 9] 2 0) ⟨0, 0, 0, 0⟩ (by decide)).1⟩

/-- Claim C15 at a failing input: on the 13-byte message whose only IE has tag
0x0300 and declared length 0, `extract_from_m2ua` returns the pointer at
offset 12 with `*len = 2^64 - 4`, a slice that does not end inside the
buffer, and the header read of `extract_from_mtp` that follows reads the
offsets 12 to 16 of a 13-byte buffer. -/
theorem C15_short_data_ie_slice_outside :
    short_data_ie_msg.data.length = 13 ∧ short_data_ie_msg.len = 13
    ∧ (extract_from_m2ua 1 short_data_ie_msg 0).ret
        = some ⟨some 12, 18446744073709551612⟩
    ∧ ¬ (12 + 18446744073709551612 ≤ short_data_ie_msg.len)
    ∧ (ss7_extract_payload 1 byte_order.little short_data_ie_msg ⟨0, 0, 0, 0⟩).reads
        = [0, 1, 2, 3, 4, 5, 6, 7, 8, 9, 10, 11, 12, 13, 14, 15, 16]
    ∧ ¬ (∀ o ∈ (ss7_extract_payload 1 byte_order.little short_data_ie_msg
          ⟨0, 0, 0, 0⟩).reads, o < short_data_ie_msg.len) := by
  decide

/-- Claim C16: on the little-endian layout, for a slice of at least 5 bytes at
offset `p`, with `w = b[1] + 2^8 b[2] + 2^16 b[3] + 2^24 b[4]`,
`extract_from_mtp` yields `type = b[0] AND 0x0F`, `dpc = w mod 2^14` and
`opc = (w div 2^14) mod 2^14`, returns the pointer behind the first 5 bytes
and decreases `*len` by exactly 5; the network indicator is `b[0] div 64` and
the link selector `w div 2^28`. -/
theorem C16_little_endian_decode (buf : List uint8_t) (p : Nat) (v : out_vars)
    (h5 : 5 ≤ v.len) (hsz : v.len < 18446744073709551616) :
    (extract_from_mtp byte_order.little buf (some p) v).ret
      = some ⟨some (p + 5),
          { len := v.len - 5,
            opc := (((rd buf (p + 1) + 2 ^ 8 * rd buf (p + 2) + 2 ^ 16 * rd buf (p + 3)
              + 2 ^ 24 * rd buf (p + 4)) / 2 ^ 14 % 2 ^ 14 : Nat) : Int),
            dpc := (((rd buf (p + 1) + 2 ^ 8 * rd buf (p + 2) + 2 ^ 16 * rd buf (p + 3)
              + 2 ^ 24 * rd buf (p + 4)) % 2 ^ 14 : Nat) : Int),
            type := ((rd buf p &&& 0x0F : Nat) : Int) }⟩
    ∧ (read_mtp_level_3_hdr byte_order.little buf p).ni = rd buf p / 64
    ∧ (read_mtp_level_3_hdr byte_order.little buf p).sls
        = (rd buf (p + 1) + 2 ^ 8 * rd buf (p + 2) + 2 ^ 16 * rd buf (p + 3)
              + 2 ^ 24 * rd buf (p + 4)) / 2 ^ 28 := by
  have hw : rd buf (p + 1) + 2 ^ 8 * rd buf (p + 2) + 2 ^ 16 * rd buf (p + 3)
      + 2 ^ 24 * rd buf (p + 4)
      = rd buf (p + 1) + rd buf (p + 2) * 256 + rd buf (p + 3) * 65536
        + rd buf (p + 4) * 16777216 := by
    norm_num
    ring
  have hs : sub_size v.len 5 = v.len - 5 := by
    unfold sub_size
    omega
  rw [extract_from_mtp_ok byte_order.little buf p v h5, hw, land_fifteen, hs]
  refine ⟨?_, rfl, ?_⟩
  · simp [read_mtp_level_3_hdr]
  · simp [read_mtp_level_3_hdr]

/-- Claim C16 on the label 85 34 52 01 30: dpc 0x1234 and opc 5. -/
theorem C16_little_endian_decode_witness :
    (extract_from_mtp byte_order.little [0x85, 0x34, 0x52, 0x01, 0x30, 0x77] (some 0)
        ⟨6, 0, 0, 0⟩).ret = some ⟨some 5, ⟨1, 5, 4660, 5⟩⟩ := by
  have h := (C16_little_endian_decode [0x85, 0x34, 0x52, 0x01, 0x30, 0x77] 0 ⟨6, 0, 0, 0⟩
    (by decide) (by decide)).1
  rw [h]
  decide

/-- Claim C17: for every IE length `L` the padding `(4 - (L mod 4)) AND 3` that
the loop body computes equals `(4 - L mod 4) mod 4`, is at most 3, makes
`L + padding` a multiple of 4 and is 0 whenever `L mod 4 = 0`. -/
theorem C17_padding (L : Nat) :
    ie_padding L = (4 - L % 4) % 4
    ∧ ie_padding L ≤ 3
    ∧ (L + ie_padding L) % 4 = 0
    ∧ (L % 4 = 0 → ie_padding L = 0) := by
  have h : ie_padding L = (4 - L % 4) % 4 := by
    unfold ie_padding
    exact land_three _
  rw [h]
  refine ⟨rfl, ?_, ?_, ?_⟩ <;> omega

/-- Claim C17 on the lengths 8, 9, 10 and 11. -/
theorem C17_padding_witness :
    ie_padding 8 = 0 ∧ ie_padding 9 = 3 ∧ ie_padding 10 = 2 ∧ ie_padding 11 = 1 :=
  ⟨(C17_padding 8).2.2.2 (by decide), (C17_padding 9).1, (C17_padding 10).1,
   (C17_padding 11).1⟩

/-- Claim C18: `extract_from_mtp` always returns, and when it returns a non-null
pointer then `0 <= *opc <= 16383`, `0 <= *dpc <= 16383` and `0 <= *type <= 15`,
so both point codes are below `INT_MAX`; after the call `*opc = INT_MAX` if
and only if `NULL` was returned, and likewise for `*dpc`. -/
theorem C18_sentinel_distinguishable (bo : byte_order) (buf : List uint8_t)
    (data : Option Nat) (v : out_vars) :
    ∃ m, (extract_from_mtp bo buf data v).ret = some m
      ∧ (m.ptr ≠ none →
          0 ≤ m.vars.opc ∧ m.vars.opc ≤ 16383 ∧ 0 ≤ m.vars.dpc ∧ m.vars.dpc ≤ 16383
          ∧ 0 ≤ m.vars.type ∧ m.vars.type ≤ 15
          ∧ m.vars.opc < INT_MAX ∧ m.vars.dpc < INT_MAX)
      ∧ (m.vars.opc = INT_MAX ↔ m.ptr = none)
      ∧ (m.vars.dpc = INT_MAX ↔ m.ptr = none) := by
  have hfail : ∀ w : out_vars,
      (({ ptr := none, vars := { w with opc := INT_MAX, dpc := INT_MAX } } : mtp_ret).ptr ≠ none →
          0 ≤ INT_MAX ∧ INT_MAX ≤ 16383 ∧ 0 ≤ INT_MAX ∧ INT_MAX ≤ 16383
          ∧ 0 ≤ w.type ∧ w.type ≤ 15 ∧ INT_MAX < INT_MAX ∧ INT_MAX < INT_MAX) :=
    fun _ h => absurd rfl h
  cases data with
  | none =>
    exact ⟨_, rfl, hfail v, by simp, by simp⟩
  | some p =>
    by_cases h : 5 ≤ v.len
    · rw [extract_from_mtp_ok bo buf p v h]
      obtain ⟨ho, hd, ht⟩ := read_mtp_level_3_hdr_bounds bo buf p
      refine ⟨_, rfl, ?_, ?_, ?_⟩
      · intro _
        simp only [INT_MAX]
        omega
      · simp only [INT_MAX]
        constructor
        · intro h'; omega
        · intro h'; cases h'
      · simp only [INT_MAX]
        constructor
        · intro h'; omega
        · intro h'; cases h'
    · rw [extract_from_mtp_short bo buf p v (by omega)]
      exact ⟨_, rfl, hfail v, by simp, by simp⟩

/-- Claim C18 on a 5-byte label decoded with the big-endian layout. -/
theorem C18_sentinel_distinguishable_witness :
    ∃ m, (extract_from_mtp byte_order.big label_bytes (some 0) ⟨5, 0, 0, 0⟩).ret = some m
      ∧ m.ptr = some 5 ∧ m.vars.opc < INT_MAX ∧ m.vars.dpc < INT_MAX := by
  obtain ⟨m, hm, hb, _, _⟩ :=
    C18_sentinel_distinguishable byte_order.big label_bytes (some 0) ⟨5, 0, 0, 0⟩
  have e : (extract_from_mtp byte_order.big label_bytes (some 0) ⟨5, 0, 0, 0⟩).ret
      = some ⟨some 5, ⟨0, 1024, 0, 5⟩⟩ := by decide
  have hptr : m.ptr = some 5 := by
    rw [e] at hm
    cases hm
    rfl
  have hne : m.ptr ≠ none := by rw [hptr]; exact fun h => nomatch h
  exact ⟨m, hm, hptr, (hb hne).2.2.2.2.2.2.1, (hb hne).2.2.2.2.2.2.2⟩

/-- Claim C19: after `ss7_extract_payload` the classification field is 0x08 when
the PPID is 2 and keeps its value otherwise, also when the scan fails or has
not returned; it is the same for every buffer content and every length. -/
theorem C19_proto_type_depends_on_ppid (fuel : Nat) (bo : byte_order) (msg : msg_t)
    (v : out_vars) :
    (ss7_extract_payload fuel bo msg v).msg.proto_type
        = (if msg.sctp_ppid = 2 then 0x08 else msg.proto_type)
    ∧ ∀ (d : List uint8_t) (l : Nat),
        (ss7_extract_payload fuel bo { msg with data := d, len := l } v).msg.proto_type
          = (ss7_extract_payload fuel bo msg v).msg.proto_type := by
  have key : ∀ m : msg_t, (ss7_extract_payload fuel bo m v).msg.proto_type
      = (if m.sctp_ppid = 2 then 0x08 else m.proto_type) := by
    intro m
    rw [payload_msg_eq]
    by_cases h : m.sctp_ppid = 2
    · simp [h]
    · simp [h]
  refine ⟨key msg, ?_⟩
  intro d l
  rw [key, key]

/-- Claim C20: for a message whose header passes the checks and whose declared
length `D` satisfies `8 <= D <= msg->len`, at every evaluation of the loop
head the offset plus `data_len` is `D`, the offset is at least 8 and
`data_len` is at most `D - 8` (no wrap-around), and every offset that
`extract_from_m2ua` reads is below `D` and below `msg->len`. -/
theorem C20_scan_invariant (fuel : Nat) (msg : msg_t) (len : Nat)
    (h0 : rd msg.data 0 = 1) (h1 : rd msg.data 1 = 0)
    (h2 : rd msg.data 2 = 6) (h3 : rd msg.data 3 = 1)
    (hD8 : 8 ≤ ntohl_at msg.data 4) (hD : ntohl_at msg.data 4 ≤ msg.len) :
    (∀ s ∈ ie_scan_heads msg.data fuel 8 (sub32 (ntohl_at msg.data 4) 8),
        s.1 + s.2 = ntohl_at msg.data 4 ∧ 8 ≤ s.1 ∧ s.2 ≤ ntohl_at msg.data 4 - 8)
    ∧ (∀ o ∈ (extract_from_m2ua fuel msg len).reads,
        o < ntohl_at msg.data 4 ∧ o < msg.len) := by
  have hlt : ntohl_at msg.data 4 < 4294967296 := by
    unfold ntohl_at rd
    have a := (msg.data.getD 4 0).isLt
    have b := (msg.data.getD (4 + 1) 0).isLt
    have c := (msg.data.getD (4 + 2) 0).isLt
    have d := (msg.data.getD (4 + 3) 0).isLt
    omega
  have hsub : sub32 (ntohl_at msg.data 4) 8 = ntohl_at msg.data 4 - 8 :=
    sub32_of_le _ _ hlt hD8
  constructor
  · intro s hs
    rw [hsub] at hs
    have := ie_scan_heads_inv msg.data (ntohl_at msg.data 4) fuel 8 _ (by omega) (by omega)
      (by omega) s hs
    omega
  · intro o ho
    rw [extract_from_m2ua_scan fuel msg len (by omega) h0 h1 h2 h3 hD, hsub] at ho
    simp only [List.mem_append] at ho
    rcases ho with ho | ho
    · simp at ho
      omega
    · have := ie_scan_reads_lt msg.data len (ntohl_at msg.data 4) fuel 8 _ (by omega)
        (by omega) o ho
      omega

/-- Claim C20 on a 24-byte message with two IEs. -/
theorem C20_scan_invariant_witness :
    ie_scan_heads two_ie_msg.data 5 8 (sub32 (ntohl_at two_ie_msg.data 4) 8)
        = [(8, 16), (16, 8)]
    ∧ ntohl_at two_ie_msg.data 4 = 24
    ∧ ∀ o ∈ (extract_from_m2ua 5 two_ie_msg 0).reads,
        o < ntohl_at two_ie_msg.data 4 ∧ o < two_ie_msg.len :=
  ⟨by decide, by decide,
   (C20_scan_invariant 5 two_ie_msg 0 (by decide) (by decide) (by decide) (by decide)
      (by decide) (by decide)).2⟩

end SS7
